import Mathlib

/-
  Verification development for the mail-classifier repository.

  Shallow embedding of the core components:
  * the per-record Classification Mapper and Identifier Reconciler of the
    extraction client in src/unnamed/part_002 (analyzeMailItem), and the
    variant mapper embedded in src/components/ActionSummary.tsx;
  * the retry loop of the ActionSummary.tsx extraction client, with the
    backoff formula of the part_002 client;
  * the batch engine of src/App.tsx (startEngine) and the per-iteration
    item update of the alternate engine in src/unnamed/part_000;
  * the import mergers of src/App.tsx (handleImportFromDrive,
    handleFilesAdd) and the local-folder merge of src/unnamed/part_000
    (fetchSourceFiles).

  JavaScript strings are modelled as Lean String, undefined/null fields as
  Option String, and Math.random outputs as explicit parameters.  Machine
  arithmetic plays no role (all numbers are small naturals).
-/

namespace MailClassifier

/-- Classification buckets, from src/types.ts (enum ClassificationType). -/
inductive ClassificationType
  | FORWARD_AYR
  | FORWARD_OZ
  | DIGITAL_STORE
  | DIGITAL_STORE_ACTION
  | SHRED
  | TBC
deriving DecidableEq, Repr

/-- Raw extraction record produced by the document-understanding service,
per the response schema in src/unnamed/part_002.  A missing (undefined)
field is modelled as none. -/
structure RawRecord where
  ukpostbox_ref : Option String := none
  recipient_name : Option String := none
  delivery_address : Option String := none
  sender : Option String := none
  document_type : Option String := none
  date_on_document : Option String := none
  account_or_reference : Option String := none
  routing : Option String := none
  importance : Option String := none
  auto_action : Option String := none
  reasoning : Option String := none
  confidence : Option String := none
deriving DecidableEq, Repr

/-- Substring test on character lists (JS String.prototype.includes). -/
def containsSeq (needle : List Char) : List Char → Bool
  | [] => needle.isEmpty
  | c :: rest => needle.isPrefixOf (c :: rest) || containsSeq needle rest

/-- Keywords of the urgency fallback in part_002 lines 142-149. -/
def urgencyWords : List String := ["tax", "bill", "invoice", "demand", "legal", "notice"]

/-- Lower-casing a string character by character
(JS String.prototype.toLowerCase on the alphabets in play). -/
def lowerString (s : String) : String := String.mk (s.toList.map Char.toLower)

/-- Lower-cased document type contains an urgency keyword
(part_002 lines 143-145). -/
def hasUrgencyWord (docType : Option String) : Bool :=
  let lowerDoc := lowerString (docType.getD "")
  urgencyWords.any (fun w => containsSeq w.toList lowerDoc.toList)

/-- Fallback routing mutation of part_002 lines 142-149: an unknown routing
with HIGH_FORWARD or CRITICAL_FORWARD importance and an urgent document
type is rewritten to forward_to_ayr, appending to the reasoning. -/
def resolveRouting (r : RawRecord) : RawRecord :=
  if r.routing = some "unknown" ∧
      (r.importance = some "HIGH_FORWARD" ∨ r.importance = some "CRITICAL_FORWARD") ∧
      hasUrgencyWord r.document_type then
    { r with
        routing := some "forward_to_ayr"
        reasoning := some ((r.reasoning.getD "") ++ " [Fallback: High Importance document routed to Ayr]") }
  else r

/-- Pre-override classification ladder of part_002 lines 151-154
(first match wins, default TBC). -/
def classifyPre (r : RawRecord) : ClassificationType :=
  if r.routing = some "forward_to_ayr" then .FORWARD_AYR
  else if r.routing = some "forward_to_oz" then .FORWARD_OZ
  else if r.auto_action = some "archive_digital" then .DIGITAL_STORE
  else if r.importance = some "DIGITAL_ONLY" then .SHRED
  else .TBC

/-- Pre-override classification ladder of the ActionSummary.tsx variant
(lines 525-537); the two extra explicit branches also yield TBC. -/
def classifyPreAS (r : RawRecord) : ClassificationType :=
  if r.routing = some "forward_to_ayr" then .FORWARD_AYR
  else if r.routing = some "forward_to_oz" then .FORWARD_OZ
  else if r.auto_action = some "archive_digital" then .DIGITAL_STORE
  else if r.importance = some "DIGITAL_ONLY" then .SHRED
  else if r.auto_action = some "human_review_queue" ∨ r.routing = some "unknown" then .TBC
  else .TBC

/-- Importance override of part_002 lines 156-159 and ActionSummary.tsx
lines 539-541: CRITICAL_FORWARD or HIGH_FORWARD escalates any
non-forwarding classification to DIGITAL_STORE_ACTION. -/
def applyOverride (r : RawRecord) (c : ClassificationType) : ClassificationType :=
  if (r.importance = some "CRITICAL_FORWARD" ∨ r.importance = some "HIGH_FORWARD") ∧
      c ≠ .FORWARD_AYR ∧ c ≠ .FORWARD_OZ then
    .DIGITAL_STORE_ACTION
  else c

/-- JS expression x || d on an optional string: undefined and the empty
string both fall back to the default. -/
def orElseStr (s : Option String) (d : String) : String :=
  match s with
  | none => d
  | some v => if v = "" then d else v

/-- Compacted document date: (date_on_document || "00000000") with all
hyphens removed (part_002 line 161, ActionSummary.tsx line 543). -/
def dateCompact (d : Option String) : String :=
  String.mk ((orElseStr d "00000000").toList.filter (fun c => !(c == Char.ofNat 45)))

/-- Suggested filename of part_002 line 162: date, sender and recipient
only; there is no classification-code bracket in this variant. -/
def suggestedFilenameP2 (r : RawRecord) : String :=
  dateCompact r.date_on_document ++ " [" ++ orElseStr r.sender "Unknown" ++ "] ["
    ++ orElseStr r.recipient_name "Unknown" ++ "]"

/-- Fixed classification code table of ActionSummary.tsx lines 544-549. -/
def catCode : ClassificationType → String
  | .FORWARD_AYR => "FORWARD TO AYR"
  | .FORWARD_OZ => "FORWARD TO AU"
  | .DIGITAL_STORE => "DIGITAL STORE"
  | .DIGITAL_STORE_ACTION => "ACTION REQUIRED"
  | .SHRED => "SHRED"
  | .TBC => "TBC"

/-- Suggested filename of the ActionSummary.tsx variant (line 551):
date, sender, recipient and the classification code. -/
def suggestedFilenameAS (r : RawRecord) : String :=
  let c := applyOverride r (classifyPreAS r)
  dateCompact r.date_on_document ++ " [" ++ orElseStr r.sender "Unknown" ++ "] ["
    ++ orElseStr r.recipient_name "Unknown" ++ "] [" ++ catCode c ++ "]"

/-- Quote characters removed by the reference sanitizer
(part_002 line 175, the regex of apostrophe and double quote). -/
def isQuoteChar (c : Char) : Bool := c == Char.ofNat 34 || c == Char.ofNat 39

/-- Remove quote characters from a character list. -/
def stripQuotes (s : List Char) : List Char := s.filter (fun c => !isQuoteChar c)

/-- Trim leading and trailing whitespace (JS String.prototype.trim). -/
def trimChars (s : List Char) : List Char :=
  ((s.dropWhile Char.isWhitespace).reverse.dropWhile Char.isWhitespace).reverse

/-- A digit or a whitespace character (the character class of the
compaction regex in part_002 line 179). -/
def isDigitOrSpace (c : Char) : Bool := c.isDigit || c.isWhitespace

/-- Sanitizer of part_002 lines 175-185: strip quotes, trim, and compact a
digits-and-whitespace string when the compacted length is within 4..9. -/
def sanitizeRef (s : String) : String :=
  let s1 := trimChars (stripQuotes s.toList)
  let s2 :=
    if s1 ≠ [] ∧ s1.all isDigitOrSpace then
      let c := s1.filter (fun ch => !ch.isWhitespace)
      if 4 ≤ c.length ∧ c.length ≤ 9 then c else s1
    else s1
  String.mk s2

/-- Placeholder tokens treated as an absent reference
(part_002 line 188). -/
def refBlankTokens : List String :=
  ["null", "none", "n/a", "unknown", "", "unknown_ref", "undefined", "ref", "id"]

/-- Step 1 of the identifier reconciler (part_002 lines 166-195): sanitize
the model-provided reference and drop placeholder tokens. -/
def normalizeRef : Option String → Option String
  | none => none
  | some s =>
    let s2 := sanitizeRef s
    if lowerString s2 ∈ refBlankTokens then none else some s2

/-- Maximal digit runs of a character list, in order (accumulator holds the
current run reversed). -/
def digitRunsAux : List Char → List Char → List (List Char)
  | [], acc => if acc.isEmpty then [] else [acc.reverse]
  | c :: rest, acc =>
    if c.isDigit then digitRunsAux rest (c :: acc)
    else if acc.isEmpty then digitRunsAux rest []
    else acc.reverse :: digitRunsAux rest []

/-- Maximal digit runs of a character list. -/
def digitRuns (s : List Char) : List (List Char) := digitRunsAux s []

/-- Greedy matches of the digit-run regex of part_002 line 204 within one
maximal digit run: repeatedly take up to nine digits, requiring at least
five, and discard a short remainder. -/
def runMatchesAux : Nat → List Char → List (List Char)
  | 0, _ => []
  | fuel + 1, run =>
    if run.length < 5 then []
    else run.take 9 :: runMatchesAux fuel (run.drop 9)

def runMatches (run : List Char) : List (List Char) := runMatchesAux run.length run

/-- All matches of the digit-run regex in a filename, in order
(part_002 line 204). -/
def filenameCandidates (fname : String) : List String :=
  ((digitRuns fname.toList).flatMap runMatches).map (fun l => String.mk l)

/-- Step 2 of the identifier reconciler (part_002 lines 199-218): the first
candidate of length 5..7 when one exists, otherwise the first candidate. -/
def pickCandidate (fname : String) : Option String :=
  match (filenameCandidates fname).find? (fun c => decide (5 ≤ c.length ∧ c.length ≤ 7)) with
  | some best => some best
  | none => (filenameCandidates fname).head?

/-- Identifier reconciler of part_002 lines 164-221.  A filename candidate
overrides the sanitized reference; when both are absent a generated token
is used, with the random suffix passed in explicitly. -/
def reconcileId (rawRef : Option String) (fname : Option String) (rand : String) : String :=
  let step1 := normalizeRef rawRef
  let fromName :=
    match fname with
    | some f => pickCandidate f
    | none => none
  match fromName with
  | some c => c
  | none =>
    match step1 with
    | some r => r
    | none => "GEN-" ++ rand

/-- Result record returned by the part_002 mapper (the fields relevant to
the verified claims). -/
structure MailResult where
  itemId : String
  classification : ClassificationType
  suggestedFilename : String := ""
  ukpostbox_ref : Option String := none
  routing : Option String := none
  importance : Option String := none
  auto_action : Option String := none
  sender : Option String := none
  recipient_name : Option String := none
  reasoning : Option String := none
deriving DecidableEq, Repr

/-- Per-record mapping of part_002 lines 137-235: resolve the routing
fallback, classify, apply the importance override, build the suggested
filename, reconcile the identifier, and overwrite ukpostbox_ref with the
final identifier. -/
def mapRecordP2 (r0 : RawRecord) (fname : Option String) (rand : String) : MailResult :=
  let r := resolveRouting r0
  let c := applyOverride r (classifyPre r)
  let finalId := reconcileId r.ukpostbox_ref fname rand
  { itemId := finalId
    classification := c
    suggestedFilename := suggestedFilenameP2 r
    ukpostbox_ref := some finalId
    routing := r.routing
    importance := r.importance
    auto_action := r.auto_action
    sender := r.sender
    recipient_name := r.recipient_name
    reasoning := r.reasoning }

/-- Outcome of one attempt of the extraction call: parsed records, or an
error carrying an HTTP-like status and a message. -/
inductive AttemptResult
  | ok (rs : List RawRecord)
  | err (status : Nat) (msg : String)
deriving DecidableEq, Repr

/-- Maximum attempt count of the ActionSummary.tsx client (line 478). -/
def maxRetriesAS : Nat := 6

/-- Retryable-error test of ActionSummary.tsx lines 579-580: a rate limit
(status 429 or a message mentioning it) or status 503/500. -/
def retryableAS (status : Nat) (msg : String) : Bool :=
  (status == 429 || containsSeq "Resource exhausted".toList msg.toList
      || containsSeq "429".toList msg.toList)
    || (status == 503 || status == 500)

/-- Terminal error mapping of ActionSummary.tsx lines 594-598. -/
def mapErrAS (status : Nat) (msg : String) : String :=
  if status = 400 then "Invalid File: The document appears to be corrupted or too large."
  else if status = 401 then "Authentication Failed: Check your API Key."
  else if status = 429 then "High Traffic: Please wait a moment."
  else if msg = "" then "Analysis failed due to a network error."
  else msg

/-- Backoff wait of ActionSummary.tsx line 583: 2 to the attempt times 2000
milliseconds plus a jitter below 1000 (Math.random times 1000, modelled by
the explicit jitter function). -/
def waitAS (jit : Nat → Nat) (attempt : Nat) : Nat :=
  2 ^ attempt * 2000 + jit attempt

/-- Backoff wait of the part_002 client (line 244): 2 to the attempt times
5000 milliseconds plus a constant 3000. -/
def waitP2 (attempt : Nat) : Nat :=
  2 ^ attempt * 5000 + 3000

/-- Retry loop of ActionSummary.tsx lines 483-601, with the remaining
iterations of the while loop made explicit as fuel (entered with fuel
maxRetriesAS, mirroring attempt < maxRetries).  Returns the outcome
together with the list of backoff waits performed, in order. -/
def runRetryAS (att : Nat → AttemptResult) (jit : Nat → Nat) :
    Nat → Nat → Except String (List RawRecord) × List Nat
  | _, 0 => (.error "Analysis failed after multiple retries. The model might be overloaded.", [])
  | attempt, fuel + 1 =>
    match att attempt with
    | .ok rs => (.ok rs, [])
    | .err status msg =>
      if retryableAS status msg ∧ attempt < maxRetriesAS - 1 then
        let rec2 := runRetryAS att jit (attempt + 1) fuel
        (rec2.1, waitAS jit attempt :: rec2.2)
      else (.error (mapErrAS status msg), [])

/-- Entry point of the ActionSummary.tsx retry loop: attempt 0, fuel
maxRetriesAS. -/
def analyzeAS (att : Nat → AttemptResult) (jit : Nat → Nat) :
    Except String (List RawRecord) × List Nat :=
  runRetryAS att jit 0 maxRetriesAS

/-- Work-item status, from src/types.ts (BatchItem.status). -/
inductive WStatus
  | idle
  | analyzing
  | success
  | needs_manual_review
  | error
deriving DecidableEq, Repr

/-- Work item of the batch queue, from src/types.ts (BatchItem); the File
object and preview URL are outside the model. -/
structure WItem where
  id : String
  name : String := ""
  status : WStatus := .idle
  statusMessage : Option String := none
  results : Option (List MailResult) := none
  error : Option String := none
deriving DecidableEq, Repr

/-- Outcome of the extraction call as seen by the engine: a result list, or
a thrown error message. -/
inductive AnalyzeOutcome
  | ok (rs : List MailResult)
  | thrown (msg : String)
deriving DecidableEq, Repr

/-- Per-item terminal update of the part_000 engine (lines 285-291): on
success the status is needs_manual_review exactly when some result is TBC,
the results are stored and the status message cleared; on a thrown error
the status is error with the message (defaulted when empty) and the status
message cleared. -/
def processItemP000 (i : WItem) (o : AnalyzeOutcome) : WItem :=
  match o with
  | .ok rs =>
    let hasTBC := rs.any (fun r => decide (r.classification = ClassificationType.TBC))
    { i with
        status := if hasTBC then .needs_manual_review else .success
        results := some rs
        statusMessage := none }
  | .thrown msg =>
    { i with
        status := .error
        error := some (if msg = "" then "Unknown analysis error" else msg)
        statusMessage := none }

/-- Per-item terminal update of the src/App.tsx engine (lines 295-297): on
success the status is always success and the status message is left
untouched; on a thrown error the status is error with the message. -/
def processItemApp (i : WItem) (o : AnalyzeOutcome) : WItem :=
  match o with
  | .ok rs => { i with status := .success, results := some rs }
  | .thrown msg => { i with status := .error, error := some msg }

/-- Phase transition at the top of each src/App.tsx engine iteration
(line 255). -/
def markAnalyzingApp (i : WItem) : WItem :=
  { i with status := .analyzing, statusMessage := some "Preparing document..." }

/-- Idleness test used by the engine's selection (status === idle). -/
def isIdle (i : WItem) : Bool := decide (i.status = WStatus.idle)

/-- First idle item in queue order (src/App.tsx line 251). -/
def firstIdle (items : List WItem) : Option WItem := items.find? isIdle

/-- Number of idle items in the queue. -/
def countIdle (items : List WItem) : Nat := items.countP isIdle

/-- One iteration of the src/App.tsx engine loop on the queue: mark the
selected item analyzing (line 255), then write its terminal update
(lines 295-297); both writes replace the items whose id matches. -/
def engineIteration (items : List WItem) (t : WItem) (o : AnalyzeOutcome) : List WItem :=
  (items.map (fun i => if i.id = t.id then markAnalyzingApp i else i)).map
    (fun i => if i.id = t.id then processItemApp i o else i)

/-- Engine-level state: the single active flag, the processing id, and the
queue (src/App.tsx lines 43-60). -/
structure EngineState where
  active : Bool
  processingId : Option String
  items : List WItem
deriving DecidableEq, Repr

/-- Engine loop body of src/App.tsx lines 250-303, with the remaining
iterations made explicit as fuel; each pass selects the first idle item,
records its id as processing, and applies one iteration.  The theorem
engineLoopS_unfold below recovers the unbounded while-loop recurrence. -/
def engineLoopFuel (oc : WItem → AnalyzeOutcome) : Nat → EngineState → EngineState
  | 0, s => s
  | fuel + 1, s =>
    match firstIdle s.items with
    | none => s
    | some t =>
      engineLoopFuel oc fuel
        { s with processingId := some t.id, items := engineIteration s.items t (oc t) }

/-- Engine loop of src/App.tsx: the while loop terminates after at most
countIdle iterations, which the fuel makes explicit. -/
def engineLoopS (oc : WItem → AnalyzeOutcome) (s : EngineState) : EngineState :=
  engineLoopFuel oc (countIdle s.items) s

/-- startEngine of src/App.tsx lines 246-307: return immediately when the
active flag is set, otherwise set it, run the loop, and clear the flag and
the processing id on exit. -/
def startEngine (oc : WItem → AnalyzeOutcome) (s : EngineState) : EngineState :=
  if s.active then s
  else
    let s2 := engineLoopS oc { s with active := true }
    { s2 with processingId := none, active := false }

/-- Listing entry returned by the remote storage provider
(DriveFile in src/unnamed/part_001). -/
structure DriveFile where
  id : String
  name : String := ""
  mimeType : String := ""
  thumbnailLink : Option String := none
deriving DecidableEq, Repr

/-- Queue item as built by the import paths of src/App.tsx. -/
structure BItem where
  id : String
  driveFileId : Option String := none
  driveMimeType : Option String := none
  name : String := ""
  status : WStatus := .idle
  previewUrl : Option String := none
deriving DecidableEq, Repr

/-- New queue item for a listed remote file (src/App.tsx lines 149-156);
the random id is supplied by the generator parameter. -/
def mkDriveItem (gid : DriveFile → String) (f : DriveFile) : BItem :=
  { id := gid f
    driveFileId := some f.id
    driveMimeType := some f.mimeType
    name := f.name
    status := .idle
    previewUrl := f.thumbnailLink }

/-- Drive file ids already present in the queue: the driveFileId values
with undefined and empty entries dropped (src/App.tsx line 159,
filter(Boolean)). -/
def driveKeys (items : List BItem) : List String :=
  (items.filterMap (fun i => i.driveFileId)).filter (fun s => !(s == ""))

/-- Import merger for remote listings (src/App.tsx lines 149-166): map the
listing to fresh items, drop those whose drive file id is already present,
and append the remainder after the existing items. -/
def mergeDrive (gid : DriveFile → String) (existing : List BItem) (files : List DriveFile) :
    List BItem :=
  let newItems := files.map (mkDriveItem gid)
  let existingIds := driveKeys existing
  let uniqueItems :=
    newItems.filter (fun i => !(i.driveFileId.any (fun d => decide (d ∈ existingIds))))
  existing ++ uniqueItems

/-- Local file as seen by the import paths (only the display name matters
for merging). -/
structure LocalFile where
  name : String
deriving DecidableEq, Repr

/-- New queue item for a local file (src/App.tsx lines 228-234). -/
def mkLocalItem (gid : LocalFile → String) (f : LocalFile) : BItem :=
  { id := gid f
    driveFileId := none
    driveMimeType := none
    name := f.name
    status := .idle
    previewUrl := none }

/-- Local addition of src/App.tsx handleFilesAdd (lines 176-244, non-zip
path): every processed file is appended to the queue; no deduplication is
performed against existing items. -/
def mergeLocalApp (gid : LocalFile → String) (existing : List BItem) (files : List LocalFile) :
    List BItem :=
  existing ++ files.map (mkLocalItem gid)

/-- Local-folder merge of src/unnamed/part_000 fetchSourceFiles
(lines 161-180): new items whose display name is already present among
existing items are dropped, the rest are appended in listing order. -/
def mergeLocalP000 (gid : LocalFile → String) (existing : List BItem) (files : List LocalFile) :
    List BItem :=
  let newItems := files.map (mkLocalItem gid)
  let existingNames := existing.map (fun i => i.name)
  existing ++ newItems.filter (fun i => !(decide (i.name ∈ existingNames)))

/-- Terminal statuses of the engine state machine (success, needs manual
review, or failed). -/
def terminalStatus (st : WStatus) : Prop :=
  st = .success ∨ st = .needs_manual_review ∨ st = .error

/-- Every item is either still idle or already terminal (the engine never
leaves an item in analyzing once its iteration completes). -/
def idleOrTerminal (i : WItem) : Prop :=
  i.status = .idle ∨ terminalStatus i.status

/-- Concrete result with the cannot-determine classification. -/
def tbcResult : MailResult := { itemId := "t1", classification := .TBC }

/-- Concrete item in the state the src/App.tsx engine puts it in right
before the extraction call. -/
def analyzingItem : WItem :=
  { id := "w1", status := .analyzing, statusMessage := some "Preparing document..." }

/-- Concrete DIGITAL_ONLY record used to exhibit the shape of the
suggested filenames. -/
def shredRecord : RawRecord :=
  { sender := some "HMRC"
    recipient_name := some "Nishant Dougall"
    date_on_document := some "2024-01-01"
    importance := some "DIGITAL_ONLY" }

/-- C1: for every raw extraction record, the pre-override classification is
computed by a top-down first-match-wins ladder on the resolved routing,
auto_action and importance fields: routing forward_to_ayr gives
FORWARD_AYR; else routing forward_to_oz gives FORWARD_OZ; else auto_action
archive_digital gives DIGITAL_STORE; else importance DIGITAL_ONLY gives
SHRED; else TBC.  The ActionSummary.tsx ladder agrees with the part_002
ladder, and the mapper composes the ladder on the resolved record with the
importance override. -/
theorem c1_classification_ladder (r : RawRecord) :
    (r.routing = some "forward_to_ayr" → classifyPre r = .FORWARD_AYR) ∧
    (r.routing ≠ some "forward_to_ayr" → r.routing = some "forward_to_oz" →
      classifyPre r = .FORWARD_OZ) ∧
    (r.routing ≠ some "forward_to_ayr" → r.routing ≠ some "forward_to_oz" →
      r.auto_action = some "archive_digital" → classifyPre r = .DIGITAL_STORE) ∧
    (r.routing ≠ some "forward_to_ayr" → r.routing ≠ some "forward_to_oz" →
      r.auto_action ≠ some "archive_digital" → r.importance = some "DIGITAL_ONLY" →
      classifyPre r = .SHRED) ∧
    (r.routing ≠ some "forward_to_ayr" → r.routing ≠ some "forward_to_oz" →
      r.auto_action ≠ some "archive_digital" → r.importance ≠ some "DIGITAL_ONLY" →
      classifyPre r = .TBC) ∧
    classifyPreAS r = classifyPre r ∧
    (∀ fname rand, (mapRecordP2 r fname rand).classification
      = applyOverride (resolveRouting r) (classifyPre (resolveRouting r))) := by
  refine ⟨?_, ?_, ?_, ?_, ?_, ?_, fun fname rand => rfl⟩
  · intro h1
    simp [classifyPre, h1]
  · intro h1 h2
    simp [classifyPre, h1, h2]
  · intro h1 h2 h3
    simp [classifyPre, h1, h2, h3]
  · intro h1 h2 h3 h4
    simp [classifyPre, h1, h2, h3, h4]
  · intro h1 h2 h3 h4
    simp [classifyPre, h1, h2, h3, h4]
  · unfold classifyPreAS classifyPre
    repeat' split
    all_goals rfl

/-- Witness for c1_classification_ladder at concrete records. -/
theorem c1_witness :
    classifyPre { routing := some "forward_to_oz" } = ClassificationType.FORWARD_OZ ∧
    classifyPre { importance := some "DIGITAL_ONLY" } = ClassificationType.SHRED := by
  exact ⟨(c1_classification_ladder _).2.1 (by decide) rfl,
    (c1_classification_ladder _).2.2.2.1 (by decide) (by decide) (by decide) rfl⟩

/-- C2: for a record whose importance is CRITICAL_FORWARD or HIGH_FORWARD,
a non-forwarding ladder classification is escalated to
DIGITAL_STORE_ACTION (so it is never left as SHRED or TBC), while an
already-resolved FORWARD_AYR or FORWARD_OZ is kept unchanged. -/
theorem c2_escalation_override (r : RawRecord)
    (h : r.importance = some "CRITICAL_FORWARD" ∨ r.importance = some "HIGH_FORWARD") :
    (classifyPre r ≠ .FORWARD_AYR → classifyPre r ≠ .FORWARD_OZ →
      applyOverride r (classifyPre r) = .DIGITAL_STORE_ACTION) ∧
    ((classifyPre r = .FORWARD_AYR ∨ classifyPre r = .FORWARD_OZ) →
      applyOverride r (classifyPre r) = classifyPre r) := by
  constructor
  · intro h1 h2
    unfold applyOverride
    rw [if_pos ⟨h, h1, h2⟩]
  · intro h1
    unfold applyOverride
    rcases h1 with h1 | h1
    · rw [if_neg (fun hc => hc.2.1 h1)]
    · rw [if_neg (fun hc => hc.2.2 h1)]

/-- Witness for c2_escalation_override at concrete records. -/
theorem c2_witness :
    applyOverride { importance := some "CRITICAL_FORWARD" }
        (classifyPre { importance := some "CRITICAL_FORWARD" })
      = ClassificationType.DIGITAL_STORE_ACTION ∧
    applyOverride { routing := some "forward_to_ayr", importance := some "HIGH_FORWARD" }
        (classifyPre { routing := some "forward_to_ayr", importance := some "HIGH_FORWARD" })
      = classifyPre { routing := some "forward_to_ayr", importance := some "HIGH_FORWARD" } := by
  exact ⟨(c2_escalation_override _ (Or.inl rfl)).1 (by decide) (by decide),
    (c2_escalation_override _ (Or.inr rfl)).2 (Or.inl (by decide))⟩

/-- C3: the identifier reconciler is first-successful-step-wins: a filename
candidate (first digit-run match of length 5..7, else the first match)
overrides the sanitized model reference; when the filename yields nothing
the sanitized reference is used; when both are absent a GEN-prefixed token
is synthesized.  For filename 96279_080725-01.pdf the canonical id is
96279 regardless of the model reference; sanitization compacts quoted
split digits and drops placeholder tokens. -/
theorem c3_identifier_reconciler :
    (∀ rawRef f rand c, pickCandidate f = some c →
      reconcileId rawRef (some f) rand = c) ∧
    (∀ rawRef f rand rr, pickCandidate f = none → normalizeRef rawRef = some rr →
      reconcileId rawRef (some f) rand = rr) ∧
    (∀ rawRef f rand, pickCandidate f = none → normalizeRef rawRef = none →
      reconcileId rawRef (some f) rand = "GEN-" ++ rand) ∧
    (∀ rawRef rand, reconcileId rawRef (some "96279_080725-01.pdf") rand = "96279") ∧
    normalizeRef (some " \"50 23 91\" ") = some "502391" ∧
    normalizeRef (some "Unknown_Ref") = none := by
  refine ⟨?_, ?_, ?_, ?_, by decide, by decide⟩
  · intro rawRef f rand c h
    simp [reconcileId, h]
  · intro rawRef f rand rr h1 h2
    simp [reconcileId, h1, h2]
  · intro rawRef f rand h1 h2
    simp [reconcileId, h1, h2]
  · intro rawRef rand
    have hp : pickCandidate "96279_080725-01.pdf" = some "96279" := by decide
    simp [reconcileId, hp]

/-- Witness for c3_identifier_reconciler at concrete inputs. -/
theorem c3_witness :
    reconcileId (some "999") (some "ab12345cd.pdf") "ZZ" = "12345" ∧
    reconcileId (some "Unknown_Ref") (some "ab.pdf") "ZZ" = "GEN-ZZ" := by
  exact ⟨c3_identifier_reconciler.1 _ _ _ _ (by decide),
    c3_identifier_reconciler.2.2.1 _ _ _ (by decide) (by decide)⟩

/-- C4 counterexample: at a concrete DIGITAL_ONLY record the part_002
suggested filename has no classification-code bracket (the claim asserts
one), while the ActionSummary.tsx variant carries it; the two filenames
differ. -/
theorem c4_counterexample :
    suggestedFilenameP2 shredRecord = "20240101 [HMRC] [Nishant Dougall]" ∧
    applyOverride shredRecord (classifyPre shredRecord) = ClassificationType.SHRED ∧
    containsSeq "[SHRED]".toList (suggestedFilenameP2 shredRecord).toList = false ∧
    suggestedFilenameAS shredRecord = "20240101 [HMRC] [Nishant Dougall] [SHRED]" ∧
    suggestedFilenameP2 shredRecord ≠ suggestedFilenameAS shredRecord := by
  exact ⟨rfl, rfl, rfl, rfl, by decide⟩

/-- C4 (amended): the ActionSummary.tsx mapper builds the suggested
filename as compacted date, sender bracket, recipient bracket and a fixed
classification-code bracket, with a zero placeholder for a missing date
and the Unknown token for a missing sender or recipient; the part_002
mapper builds the same string without the classification-code bracket. -/
theorem c4_suggested_filename (r : RawRecord) :
    suggestedFilenameAS r =
      dateCompact r.date_on_document ++ " [" ++ orElseStr r.sender "Unknown" ++ "] ["
        ++ orElseStr r.recipient_name "Unknown" ++ "] ["
        ++ catCode (applyOverride r (classifyPreAS r)) ++ "]" ∧
    suggestedFilenameP2 r =
      dateCompact r.date_on_document ++ " [" ++ orElseStr r.sender "Unknown" ++ "] ["
        ++ orElseStr r.recipient_name "Unknown" ++ "]" ∧
    dateCompact none = "00000000" ∧
    orElseStr none "Unknown" = "Unknown" := by
  exact ⟨rfl, rfl, rfl, rfl⟩

/-- C10: the part_002 mapper overwrites the returned ukpostbox_ref field
with the final reconciled item id, including on the generated-token
fallback path, so the model-supplied raw reference never survives into the
returned record when it differs from the reconciled id. -/
theorem c10_ref_overwritten (r : RawRecord) (fname : Option String) (rand : String) :
    (mapRecordP2 r fname rand).ukpostbox_ref = some ((mapRecordP2 r fname rand).itemId) ∧
    (mapRecordP2 r fname rand).itemId = reconcileId r.ukpostbox_ref fname rand ∧
    (mapRecordP2 ({} : RawRecord) (some "scan.pdf") "AB12CD").ukpostbox_ref
      = some "GEN-AB12CD" := by
  have hkeep : (resolveRouting r).ukpostbox_ref = r.ukpostbox_ref := by
    unfold resolveRouting
    split
    all_goals rfl
  refine ⟨rfl, ?_, by decide⟩
  show reconcileId (resolveRouting r).ukpostbox_ref fname rand = _
  rw [hkeep]

/-- One step of the ActionSummary.tsx retry loop, as an equation. -/
theorem runRetryAS_step (att : Nat → AttemptResult) (jit : Nat → Nat) (attempt fuel : Nat) :
    runRetryAS att jit attempt (fuel + 1) =
      match att attempt with
      | .ok rs => (.ok rs, [])
      | .err status msg =>
        if retryableAS status msg ∧ attempt < maxRetriesAS - 1 then
          let rec2 := runRetryAS att jit (attempt + 1) fuel
          (rec2.1, waitAS jit attempt :: rec2.2)
        else (.error (mapErrAS status msg), []) := rfl

/-- The first step of the retry loop at its entry fuel, as an equation. -/
theorem runRetryAS_start (att : Nat → AttemptResult) (jit : Nat → Nat) :
    runRetryAS att jit 0 maxRetriesAS =
      match att 0 with
      | .ok rs => (.ok rs, [])
      | .err status msg =>
        if retryableAS status msg ∧ 0 < maxRetriesAS - 1 then
          let rec2 := runRetryAS att jit 1 (maxRetriesAS - 1)
          (rec2.1, waitAS jit 0 :: rec2.2)
        else (.error (mapErrAS status msg), []) := rfl

/-- The retry loop performs at most maxRetriesAS - 1 - attempt backoff
waits from a given attempt index. -/
theorem runRetryAS_waits_le (att : Nat → AttemptResult) (jit : Nat → Nat) :
    ∀ fuel attempt, (runRetryAS att jit attempt fuel).2.length ≤ maxRetriesAS - 1 - attempt := by
  intro fuel
  induction fuel with
  | zero =>
    intro attempt
    simp [runRetryAS]
  | succ fuel ih =>
    intro attempt
    cases h : att attempt with
    | ok rs => simp [runRetryAS_step, h]
    | err status msg =>
      by_cases hc : retryableAS status msg = true ∧ attempt < maxRetriesAS - 1
      · have h5 : attempt < maxRetriesAS - 1 := hc.2
        have hrec := ih (attempt + 1)
        simp only [runRetryAS_step, h]
        rw [if_pos hc]
        simp only [List.length_cons]
        omega
      · simp only [runRetryAS_step, h]
        rw [if_neg hc]
        simp

/-- C7: in the ActionSummary.tsx extraction client, a 429 sequence on the
first two attempts followed by success yields success with exactly two
backoff sleeps of non-decreasing duration; backoff waits are base times 2
to the attempt plus a jitter (ActionSummary.tsx) or a constant (part_002)
addend and are non-decreasing; a non-retryable first failure is thrown
immediately with no sleep; at most maxRetriesAS - 1 sleeps ever occur; and
a permanently retryable failure surfaces the final attempt's mapped error
after exactly five sleeps. -/
theorem c7_retry_backoff :
    (∀ jit : Nat → Nat, (∀ n, jit n < 1000) → ∀ a, waitAS jit a ≤ waitAS jit (a + 1)) ∧
    (∀ a, waitP2 a ≤ waitP2 (a + 1)) ∧
    (∀ (att : Nat → AttemptResult) (jit : Nat → Nat) (status : Nat) (msg : String),
      att 0 = .err status msg → retryableAS status msg = false →
      analyzeAS att jit = (.error (mapErrAS status msg), [])) ∧
    (∀ (att : Nat → AttemptResult) (jit : Nat → Nat),
      (analyzeAS att jit).2.length ≤ maxRetriesAS - 1) ∧
    (∀ jit : Nat → Nat,
      analyzeAS (fun _ => .err 429 "") jit
        = (.error (mapErrAS 429 ""),
            [waitAS jit 0, waitAS jit 1, waitAS jit 2, waitAS jit 3, waitAS jit 4])) ∧
    (∀ (jit : Nat → Nat) (rs : List RawRecord),
      analyzeAS (fun a => if a < 2 then .err 429 "" else .ok rs) jit
        = (.ok rs, [waitAS jit 0, waitAS jit 1])) := by
  refine ⟨?_, ?_, ?_, ?_, fun jit => rfl, fun jit rs => rfl⟩
  · intro jit hj a
    have h1 := hj a
    have h2 : 1 ≤ 2 ^ a := Nat.one_le_pow a 2 (by norm_num)
    simp only [waitAS, pow_succ]
    omega
  · intro a
    have h2 : 1 ≤ 2 ^ a := Nat.one_le_pow a 2 (by norm_num)
    simp only [waitP2, pow_succ]
    omega
  · intro att jit status msg h hret
    simp [analyzeAS, runRetryAS_start, h, hret]
  · intro att jit
    have h := runRetryAS_waits_le att jit maxRetriesAS 0
    simpa using h

/-- Witness for c7_retry_backoff at concrete inputs. -/
theorem c7_witness :
    waitAS (fun _ => 500) 0 ≤ waitAS (fun _ => 500) 1 ∧
    analyzeAS (fun _ => AttemptResult.err 400 "bad") (fun _ => 0)
      = (.error (mapErrAS 400 "bad"), []) := by
  exact ⟨c7_retry_backoff.1 (fun _ => 500) (fun n => by norm_num) 0,
    c7_retry_backoff.2.2.1 _ _ 400 "bad" rfl (by decide)⟩

/-- Drive keys distribute over appended queues. -/
theorem driveKeys_append (l1 l2 : List BItem) :
    driveKeys (l1 ++ l2) = driveKeys l1 ++ driveKeys l2 := by
  simp [driveKeys, List.filterMap_append, List.filter_append]

/-- C8 counterexample: the local manual addition of src/App.tsx
(handleFilesAdd) inserts a listing entry whose display name is already
present in the queue, and a second run with the same listing inserts yet
another copy, so this merge path is neither deduplicating nor
idempotent. -/
theorem c8_counterexample :
    (mergeLocalApp (fun _ => "g1") [{ id := "e1", name := "a.pdf" }]
        [{ name := "a.pdf" }]).length = 2 ∧
    (mergeLocalApp (fun _ => "g2")
        (mergeLocalApp (fun _ => "g1") [{ id := "e1", name := "a.pdf" }] [{ name := "a.pdf" }])
        [{ name := "a.pdf" }]).length = 3 := by
  exact ⟨rfl, rfl⟩

/-- C8 (amended): the Drive import merger of src/App.tsx inserts only
listing entries whose Drive file id is not already present, appends them
after the existing items preserving listing order, leaves the existing
items unchanged, and repeating it with the same listing inserts nothing
when the listing ids are nonempty; the part_000 local-folder merge behaves
the same way keyed on display name and is unconditionally idempotent; the
src/App.tsx manual local addition appends every listing entry without any
deduplication. -/
theorem c8_import_merger (gid gid2 : DriveFile → String) (lgid lgid2 : LocalFile → String)
    (e : List BItem) (fs : List DriveFile) (ls : List LocalFile) :
    ((mergeDrive gid e fs).take e.length = e) ∧
    (∀ i ∈ (mergeDrive gid e fs).drop e.length,
      i.driveFileId.any (fun d => decide (d ∈ driveKeys e)) = false) ∧
    ((mergeDrive gid e fs).drop e.length).Sublist (fs.map (mkDriveItem gid)) ∧
    ((∀ f ∈ fs, f.id ≠ "") → mergeDrive gid2 (mergeDrive gid e fs) fs = mergeDrive gid e fs) ∧
    ((mergeLocalP000 lgid e ls).take e.length = e) ∧
    (∀ i ∈ (mergeLocalP000 lgid e ls).drop e.length, i.name ∉ e.map (fun j => j.name)) ∧
    (mergeLocalP000 lgid2 (mergeLocalP000 lgid e ls) ls = mergeLocalP000 lgid e ls) ∧
    (mergeLocalApp lgid e ls = e ++ ls.map (mkLocalItem lgid)) := by
  refine ⟨?_, ?_, ?_, ?_, ?_, ?_, ?_, rfl⟩
  · show (e ++ _).take e.length = e
    exact List.take_left e _
  · intro i hi
    rw [show (mergeDrive gid e fs).drop e.length
        = (fs.map (mkDriveItem gid)).filter
            (fun i => !(i.driveFileId.any (fun d => decide (d ∈ driveKeys e))))
      from List.drop_left e _] at hi
    have := List.of_mem_filter hi
    simpa using this
  · rw [show (mergeDrive gid e fs).drop e.length
        = (fs.map (mkDriveItem gid)).filter
            (fun i => !(i.driveFileId.any (fun d => decide (d ∈ driveKeys e))))
      from List.drop_left e _]
    exact List.filter_sublist _
  · intro hne
    show mergeDrive gid e fs
        ++ (fs.map (mkDriveItem gid2)).filter
            (fun i => !(i.driveFileId.any (fun d => decide (d ∈ driveKeys (mergeDrive gid e fs)))))
      = mergeDrive gid e fs
    have hempty : (fs.map (mkDriveItem gid2)).filter
        (fun i => !(i.driveFileId.any (fun d => decide (d ∈ driveKeys (mergeDrive gid e fs)))))
      = [] := by
      rw [List.filter_eq_nil_iff]
      intro i hi
      obtain ⟨f, hf, rfl⟩ := List.mem_map.mp hi
      have hkey : f.id ∈ driveKeys (mergeDrive gid e fs) := by
        rw [show mergeDrive gid e fs
            = e ++ (fs.map (mkDriveItem gid)).filter
                (fun i => !(i.driveFileId.any (fun d => decide (d ∈ driveKeys e))))
          from rfl, driveKeys_append]
        by_cases hmem : f.id ∈ driveKeys e
        · exact List.mem_append_left _ hmem
        · refine List.mem_append_right _ ?_
          have hkept : mkDriveItem gid f
              ∈ (fs.map (mkDriveItem gid)).filter
                  (fun i => !(i.driveFileId.any (fun d => decide (d ∈ driveKeys e)))) := by
            refine List.mem_filter.mpr ⟨List.mem_map_of_mem _ hf, ?_⟩
            simp [mkDriveItem, hmem]
          show f.id ∈ driveKeys _
          rw [driveKeys]
          refine List.mem_filter.mpr ⟨?_, ?_⟩
          · exact List.mem_filterMap.mpr ⟨mkDriveItem gid f, hkept, rfl⟩
          · simpa using hne f hf
      simp [mkDriveItem, hkey]
    rw [hempty, List.append_nil]
  · show (e ++ _).take e.length = e
    exact List.take_left e _
  · intro i hi
    rw [show (mergeLocalP000 lgid e ls).drop e.length
        = (ls.map (mkLocalItem lgid)).filter
            (fun i => !(decide (i.name ∈ e.map (fun j => j.name))))
      from List.drop_left e _] at hi
    have := List.of_mem_filter hi
    simpa using this
  · show mergeLocalP000 lgid e ls
        ++ (ls.map (mkLocalItem lgid2)).filter
            (fun i => !(decide (i.name ∈ (mergeLocalP000 lgid e ls).map (fun j => j.name))))
      = mergeLocalP000 lgid e ls
    have hempty : (ls.map (mkLocalItem lgid2)).filter
        (fun i => !(decide (i.name ∈ (mergeLocalP000 lgid e ls).map (fun j => j.name))))
      = [] := by
      rw [List.filter_eq_nil_iff]
      intro i hi
      obtain ⟨f, hf, rfl⟩ := List.mem_map.mp hi
      have hkey : f.name ∈ (mergeLocalP000 lgid e ls).map (fun j => j.name) := by
        rw [show mergeLocalP000 lgid e ls
            = e ++ (ls.map (mkLocalItem lgid)).filter
                (fun i => !(decide (i.name ∈ e.map (fun j => j.name))))
          from rfl, List.map_append]
        by_cases hmem : f.name ∈ e.map (fun j => j.name)
        · exact List.mem_append_left _ hmem
        · refine List.mem_append_right _ ?_
          have hkept : mkLocalItem lgid f
              ∈ (ls.map (mkLocalItem lgid)).filter
                  (fun i => !(decide (i.name ∈ e.map (fun j => j.name)))) := by
            refine List.mem_filter.mpr ⟨List.mem_map_of_mem _ hf, ?_⟩
            simp [mkLocalItem, hmem]
          exact List.mem_map.mpr ⟨mkLocalItem lgid f, hkept, rfl⟩
      simp [mkLocalItem, hkey]
    rw [hempty, List.append_nil]

/-- Witness for c8_import_merger: a second Drive merge with the same
listing changes nothing. -/
theorem c8_witness :
    mergeDrive (fun _ => "g2") (mergeDrive (fun _ => "g1") [] [{ id := "D1" }]) [{ id := "D1" }]
      = mergeDrive (fun _ => "g1") [] [{ id := "D1" }] := by
  exact (c8_import_merger (fun _ => "g1") (fun _ => "g2") (fun _ => "l1") (fun _ => "l2")
    [] [{ id := "D1" }] []).2.2.2.1 (by decide)

/-- Counting a weaker predicate gives at most as many hits. -/
theorem countP_le_of_imp {α : Type} (p q : α → Bool) (h : ∀ x, q x = true → p x = true)
    (l : List α) : l.countP q ≤ l.countP p := by
  induction l with
  | nil => simp
  | cons x xs ih =>
    rw [List.countP_cons, List.countP_cons]
    have hif : (if q x = true then 1 else 0) ≤ (if p x = true then 1 else 0) := by
      by_cases hq : q x = true
      · rw [if_pos hq, if_pos (h x hq)]
      · rw [if_neg hq]
        exact Nat.zero_le _
    omega

/-- Counting a weaker predicate that misses a member hit by the stronger
one gives strictly fewer hits. -/
theorem countP_lt_of_witness {α : Type} (p q : α → Bool) (h : ∀ x, q x = true → p x = true)
    (l : List α) (a : α) (ha : a ∈ l) (hpa : p a = true) (hqa : q a = false) :
    l.countP q < l.countP p := by
  induction l with
  | nil => cases ha
  | cons x xs ih =>
    rw [List.countP_cons, List.countP_cons]
    rcases List.mem_cons.mp ha with rfl | hmem
    · have hle := countP_le_of_imp p q h xs
      rw [if_pos hpa, if_neg (fun hc => by rw [hqa] at hc; exact Bool.false_ne_true hc)]
      omega
    · have hlt := ih hmem
      have hif : (if q x = true then 1 else 0) ≤ (if p x = true then 1 else 0) := by
        by_cases hq : q x = true
        · rw [if_pos hq, if_pos (h x hq)]
        · rw [if_neg hq]
          exact Nat.zero_le _
      omega

/-- The per-item update of the src/App.tsx engine never leaves an item
idle. -/
theorem processItemApp_not_idle (i : WItem) (o : AnalyzeOutcome) :
    isIdle (processItemApp i o) = false := by
  cases o
  all_goals simp [processItemApp, isIdle]

/-- One engine iteration is a single map over the queue. -/
theorem engineIteration_eq_map (items : List WItem) (t : WItem) (o : AnalyzeOutcome) :
    engineIteration items t o
      = items.map (fun i => if i.id = t.id then processItemApp (markAnalyzingApp i) o else i) := by
  simp only [engineIteration, List.map_map]
  congr 1
  funext i
  by_cases hid : i.id = t.id
  · simp [Function.comp, hid, markAnalyzingApp]
  · simp [Function.comp, hid]

/-- Processing the first idle item strictly decreases the number of idle
items. -/
theorem countIdle_iteration_lt (items : List WItem) (t : WItem) (o : AnalyzeOutcome)
    (h : firstIdle items = some t) :
    countIdle (engineIteration items t o) < countIdle items := by
  have hmem : t ∈ items := List.mem_of_find?_eq_some h
  have hidle : isIdle t = true := List.find?_some h
  rw [engineIteration_eq_map, countIdle, countIdle, List.countP_map]
  refine countP_lt_of_witness isIdle _ ?_ items t hmem hidle ?_
  · intro x hx
    by_cases hid : x.id = t.id
    · rw [Function.comp_apply, if_pos hid, processItemApp_not_idle] at hx
      cases hx
    · rwa [Function.comp_apply, if_neg hid] at hx
  · rw [Function.comp_apply, if_pos rfl, processItemApp_not_idle]

/-- A queue with no idle items has no first idle item. -/
theorem firstIdle_eq_none_of_countIdle_zero (items : List WItem) (h : countIdle items = 0) :
    firstIdle items = none := by
  rw [firstIdle, List.find?_eq_none]
  intro x hx
  exact List.countP_eq_zero.mp h x hx

/-- One engine iteration preserves the idle-or-terminal invariant. -/
theorem engineIteration_idleOrTerminal (items : List WItem) (t : WItem) (o : AnalyzeOutcome)
    (h : ∀ i ∈ items, idleOrTerminal i) :
    ∀ i ∈ engineIteration items t o, idleOrTerminal i := by
  rw [engineIteration_eq_map]
  intro i hi
  obtain ⟨j, hj, rfl⟩ := List.mem_map.mp hi
  by_cases hid : j.id = t.id
  · rw [if_pos hid]
    cases o
    all_goals simp [processItemApp, markAnalyzingApp, idleOrTerminal, terminalStatus]
  · rw [if_neg hid]
    exact h j hj

/-- The engine loop body never touches the active flag, preserves the
queue length, and preserves the idle-or-terminal invariant. -/
theorem engineLoopFuel_props (oc : WItem → AnalyzeOutcome) :
    ∀ (fuel : Nat) (s : EngineState),
      (engineLoopFuel oc fuel s).active = s.active ∧
      (engineLoopFuel oc fuel s).items.length = s.items.length ∧
      ((∀ i ∈ s.items, idleOrTerminal i) →
        ∀ i ∈ (engineLoopFuel oc fuel s).items, idleOrTerminal i) := by
  intro fuel
  induction fuel with
  | zero =>
    intro s
    exact ⟨rfl, rfl, fun h => h⟩
  | succ fuel ih =>
    intro s
    rw [engineLoopFuel]
    cases hfi : firstIdle s.items with
    | none => exact ⟨rfl, rfl, fun h => h⟩
    | some t =>
      obtain ⟨h1, h2, h3⟩ :=
        ih { s with processingId := some t.id, items := engineIteration s.items t (oc t) }
      refine ⟨h1, ?_, ?_⟩
      · rw [h2]
        show (engineIteration s.items t (oc t)).length = s.items.length
        rw [engineIteration_eq_map, List.length_map]
      · intro hall
        exact h3 (engineIteration_idleOrTerminal s.items t (oc t) hall)

/-- With enough fuel the engine loop drains the queue: no idle item
remains on exit. -/
theorem engineLoopFuel_drained (oc : WItem → AnalyzeOutcome) :
    ∀ (fuel : Nat) (s : EngineState), countIdle s.items ≤ fuel →
      firstIdle (engineLoopFuel oc fuel s).items = none := by
  intro fuel
  induction fuel with
  | zero =>
    intro s hs
    exact firstIdle_eq_none_of_countIdle_zero _ (Nat.le_zero.mp hs)
  | succ fuel ih =>
    intro s hs
    rw [engineLoopFuel]
    cases hfi : firstIdle s.items with
    | none => exact hfi
    | some t =>
      apply ih
      show countIdle (engineIteration s.items t (oc t)) ≤ fuel
      have := countIdle_iteration_lt s.items t (oc t) hfi
      omega

/-- Fuel above the idle count is irrelevant: any two sufficient fuels give
the same result, so the fuel-indexed loop implements the unbounded while
loop of the source. -/
theorem engineLoopFuel_congr (oc : WItem → AnalyzeOutcome) :
    ∀ (n : Nat) (s : EngineState) (m : Nat), countIdle s.items ≤ n → countIdle s.items ≤ m →
      engineLoopFuel oc n s = engineLoopFuel oc m s := by
  intro n
  induction n with
  | zero =>
    intro s m h0 _
    have hfi := firstIdle_eq_none_of_countIdle_zero s.items (Nat.le_zero.mp h0)
    cases m with
    | zero => rfl
    | succ m =>
      rw [engineLoopFuel, engineLoopFuel]
      simp only [hfi]
  | succ n ih =>
    intro s m hn hm
    cases hfi : firstIdle s.items with
    | none =>
      have hL : engineLoopFuel oc (n + 1) s = s := by
        rw [engineLoopFuel]
        simp only [hfi]
      rw [hL]
      cases m with
      | zero => rfl
      | succ m =>
        rw [engineLoopFuel]
        simp only [hfi]
    | some t =>
      have hlt := countIdle_iteration_lt s.items t (oc t) hfi
      have hpos : 1 ≤ countIdle s.items := by
        by_contra hle
        have h0 : countIdle s.items = 0 := by omega
        rw [firstIdle_eq_none_of_countIdle_zero s.items h0] at hfi
        exact Option.noConfusion hfi
      cases m with
      | zero => omega
      | succ m =>
        have hL : engineLoopFuel oc (n + 1) s
            = engineLoopFuel oc n
                { s with processingId := some t.id, items := engineIteration s.items t (oc t) } := by
          rw [engineLoopFuel]
          simp only [hfi]
        have hR : engineLoopFuel oc (m + 1) s
            = engineLoopFuel oc m
                { s with processingId := some t.id, items := engineIteration s.items t (oc t) } := by
          rw [engineLoopFuel]
          simp only [hfi]
        rw [hL, hR]
        refine ih _ m ?_ ?_
        · show countIdle (engineIteration s.items t (oc t)) ≤ n
          omega
        · show countIdle (engineIteration s.items t (oc t)) ≤ m
          omega

/-- The engine loop satisfies the recurrence of the source's while loop:
select the first idle item, run one iteration, repeat; exit when no idle
item remains. -/
theorem engineLoopS_unfold (oc : WItem → AnalyzeOutcome) (s : EngineState) :
    engineLoopS oc s =
      match firstIdle s.items with
      | none => s
      | some t =>
        engineLoopS oc
          { s with processingId := some t.id, items := engineIteration s.items t (oc t) } := by
  unfold engineLoopS
  cases hfi : firstIdle s.items with
  | none =>
    cases hc : countIdle s.items with
    | zero => rfl
    | succ n =>
      rw [engineLoopFuel]
      simp only [hfi]
  | some t =>
    have hlt := countIdle_iteration_lt s.items t (oc t) hfi
    have hpos : 1 ≤ countIdle s.items := by
      by_contra hle
      have h0 : countIdle s.items = 0 := by omega
      rw [firstIdle_eq_none_of_countIdle_zero s.items h0] at hfi
      exact Option.noConfusion hfi
    obtain ⟨n, hn⟩ : ∃ n, countIdle s.items = n + 1 := ⟨countIdle s.items - 1, by omega⟩
    rw [hn, engineLoopFuel]
    simp only [hfi]
    refine engineLoopFuel_congr oc n _ _ ?_ ?_
    · show countIdle (engineIteration s.items t (oc t)) ≤ n
      omega
    · exact Nat.le_refl _

/-- C5: the engine entry point is single-flight: with the active flag
already set, startEngine returns the state unchanged, selecting and
transitioning nothing; the loop body itself never modifies the flag (it is
set exactly on loop entry); and on loop exit the flag is reset to
false. -/
theorem c5_single_flight (oc : WItem → AnalyzeOutcome) (s : EngineState) :
    (s.active = true → startEngine oc s = s) ∧
    ((engineLoopS oc s).active = s.active) ∧
    (s.active = false → (startEngine oc s).active = false) := by
  refine ⟨?_, (engineLoopFuel_props oc _ s).1, ?_⟩
  · intro h
    simp [startEngine, h]
  · intro h
    simp [startEngine, h]

/-- Witness for c5_single_flight at a concrete engine state. -/
theorem c5_witness :
    startEngine (fun _ => AnalyzeOutcome.ok [])
        { active := true, processingId := none, items := [{ id := "w1" }] }
      = { active := true, processingId := none, items := [{ id := "w1" }] } ∧
    (startEngine (fun _ => AnalyzeOutcome.ok [])
        { active := false, processingId := none, items := [{ id := "w1" }] }).active = false := by
  exact ⟨(c5_single_flight _ _).1 rfl, (c5_single_flight _ _).2.2 rfl⟩

/-- C6 counterexample: in the src/App.tsx engine, a successful extraction
containing a cannot-determine result still sets the status to success (not
needs_manual_review) and leaves the status message in place, refuting the
claim for this engine. -/
theorem c6_counterexample :
    (processItemApp analyzingItem (.ok [tbcResult])).status = WStatus.success ∧
    (processItemApp analyzingItem (.ok [tbcResult])).status ≠ WStatus.needs_manual_review ∧
    (processItemApp analyzingItem (.ok [tbcResult])).statusMessage
      = some "Preparing document..." ∧
    [tbcResult].any (fun r => decide (r.classification = ClassificationType.TBC)) = true := by
  exact ⟨rfl, by decide, rfl, rfl⟩

/-- C6 (amended): one iteration of the part_000 engine on an item with no
results and no error behaves as claimed: on success the status is
needs_manual_review exactly when a result is TBC and success otherwise,
the results are stored, the status message is cleared and the error stays
empty; on a thrown error the status is error with the message (defaulted
when empty), the status message is cleared and no results are stored;
afterwards exactly one of results and error is populated.  The src/App.tsx
engine instead always reports success and keeps the status message. -/
theorem c6_iteration_outcome (i : WItem) (o : AnalyzeOutcome)
    (hres : i.results = none) (herr : i.error = none) :
    (∀ rs, o = .ok rs →
      (processItemP000 i o).status
          = (if rs.any (fun r => decide (r.classification = ClassificationType.TBC))
              then WStatus.needs_manual_review else WStatus.success) ∧
      (processItemP000 i o).results = some rs ∧
      (processItemP000 i o).statusMessage = none ∧
      (processItemP000 i o).error = none) ∧
    (∀ msg, o = .thrown msg →
      (processItemP000 i o).status = WStatus.error ∧
      (processItemP000 i o).error = some (if msg = "" then "Unknown analysis error" else msg) ∧
      (processItemP000 i o).statusMessage = none ∧
      (processItemP000 i o).results = none) ∧
    (((processItemP000 i o).results.isSome = true ∧ (processItemP000 i o).error = none) ∨
      ((processItemP000 i o).results = none ∧ (processItemP000 i o).error.isSome = true)) := by
  refine ⟨?_, ?_, ?_⟩
  · rintro rs rfl
    exact ⟨rfl, rfl, rfl, herr⟩
  · rintro msg rfl
    exact ⟨rfl, rfl, rfl, hres⟩
  · cases o with
    | ok rs => exact Or.inl ⟨rfl, herr⟩
    | thrown msg => exact Or.inr ⟨hres, rfl⟩

/-- Witness for c6_iteration_outcome at a concrete item and outcome. -/
theorem c6_witness :
    (processItemP000 { id := "w2" } (.thrown "")).status = WStatus.error ∧
    (processItemP000 { id := "w2" } (.thrown "")).error = some "Unknown analysis error" := by
  obtain ⟨hs, he, _, _⟩ :=
    (c6_iteration_outcome { id := "w2" } (.thrown "") rfl rfl).2.1 "" rfl
  exact ⟨hs, by simpa using he⟩

/-- C9: from an inactive state whose items are all idle, the engine drains
the queue and terminates: the queue keeps its length, every item ends in a
terminal status (success, needs review, or failed) with none left idle or
analyzing, and the loop exits exactly when no idle item remains (a state
with no idle item is returned unchanged). -/
theorem c9_queue_drained (oc : WItem → AnalyzeOutcome) (s : EngineState)
    (hact : s.active = false) (hidle : ∀ i ∈ s.items, i.status = WStatus.idle) :
    (startEngine oc s).items.length = s.items.length ∧
    (∀ i ∈ (startEngine oc s).items, terminalStatus i.status) ∧
    firstIdle (startEngine oc s).items = none ∧
    (∀ s2 : EngineState, firstIdle s2.items = none → engineLoopS oc s2 = s2) := by
  have hitems : (startEngine oc s).items = (engineLoopS oc { s with active := true }).items := by
    simp [startEngine, hact]
  have hlen := (engineLoopFuel_props oc (countIdle s.items) { s with active := true }).2.1
  have hinv := (engineLoopFuel_props oc (countIdle s.items) { s with active := true }).2.2
    (fun i hi => Or.inl (hidle i hi))
  have hdrained := engineLoopFuel_drained oc (countIdle s.items) { s with active := true }
    (Nat.le_refl _)
  refine ⟨?_, ?_, ?_, ?_⟩
  · rw [hitems]
    exact hlen
  · intro i hi
    rw [hitems] at hi
    rcases hinv i hi with hidle2 | hterm
    · exfalso
      have := List.find?_eq_none.mp hdrained i hi
      exact this (by simp [isIdle, hidle2])
    · exact hterm
  · rw [hitems]
    exact hdrained
  · intro s2 h2
    unfold engineLoopS
    cases hc : countIdle s2.items with
    | zero => rfl
    | succ n =>
      rw [engineLoopFuel]
      simp only [h2]

/-- Witness for c9_queue_drained at a concrete two-item queue. -/
theorem c9_witness :
    (∀ i ∈ (startEngine (fun _ => AnalyzeOutcome.ok [])
        { active := false, processingId := none, items := [{ id := "q1" }, { id := "q2" }] }).items,
      terminalStatus i.status) ∧
    firstIdle (startEngine (fun _ => AnalyzeOutcome.ok [])
        { active := false, processingId := none,
          items := [{ id := "q1" }, { id := "q2" }] }).items = none := by
  have h := c9_queue_drained (fun _ => AnalyzeOutcome.ok [])
    { active := false, processingId := none, items := [{ id := "q1" }, { id := "q2" }] }
    rfl (by decide)
  exact ⟨h.2.1, h.2.2.1⟩

end MailClassifier
